import Mathlib

/-!
Verification of the bgpchart utility (src/bgpchart.py) against its
natural-language specification.

The program is a single Python 2 script that fetches chart images for an
AS number from a BGP statistics web page and keeps a two-tier file cache
(a parsed link-mapping JSON file and the chart image itself) under
/tmp/bgpchart, invalidated once per day-of-month.

Shallow embedding conventions used throughout this file:
  - Python byte strings (`str`) are `List Char` when the content is text
    manipulated character by character, and `List Nat` (one entry per
    byte, each < 256) where byte-level behaviour matters (the JSON
    codec).  Python unicode strings are `List Nat` of codepoints.
  - Functions that may call `exit(...)` or raise are modelled with
    explicit outcome types (`Option`, or dedicated inductives).
  - The network, the HTML parser (BeautifulSoup) and the filesystem are
    oracles supplied as explicit arguments, so that the control flow of
    the script is a pure function of those oracles.
-/

namespace Bgpchart

/-- Character is an ASCII digit, as matched by Python 2's `\d` (no
re.UNICODE flag is set in the source, so only ASCII digits match). -/
def isDigitCh (c : Char) : Bool :=
  48 ≤ c.toNat && c.toNat ≤ 57

/--
Model of `in_cache(cachefile)` (src/bgpchart.py lines 37-59).

The source first runs `makedirs(CACHE)`: when the cache directory does
not yet exist it is created and the function returns False at once
(an existing file then being impossible anyway).  When the directory
exists, `makedirs` raises EEXIST and the code falls through.  The
"directory exists but could not be created" fatal-exit path is outside
the model (the claims only concern a usable cache directory).

The source then compares `datetime.now().strftime('%d')` with the same
format of the file's mtime using Python string `>`.  `%d` always
zero-pads to two digits, so lexicographic comparison of the two strings
coincides with numeric comparison of the day numbers (1..31); the model
therefore takes the two day-of-month values as `Nat` and compares with
`>` directly.
-/
def in_cache (cacheDirExists : Bool) (fileExists : Bool)
    (nowDay mtimeDay : Nat) : Bool :=
  if !cacheDirExists then
    false
  else if !fileExists then
    false
  else if nowDay > mtimeDay then
    false
  else
    true

/-- Characters that Python 2 `urllib.quote` never escapes regardless of
the `safe` argument (its `always_safe` table): ASCII letters, digits and
`_.-`. -/
def always_safe : List Char :=
  "ABCDEFGHIJKLMNOPQRSTUVWXYZabcdefghijklmnopqrstuvwxyz0123456789_.-".data

/-- The extended safe-character set passed to `quote` by `parsedata`
(src/bgpchart.py line 78): the Python literal `"%/:=&?~#+!$,;'@()*[]"`.
The single-quote character is spelled `Char.ofNat 39`. -/
def safechars : List Char :=
  "%/:=&?~#+!$,;".data ++ [Char.ofNat 39] ++ "@()*[]".data

/-- Uppercase hexadecimal digit character for a value below 16, as used
by `urllib.quote` when percent-escaping a byte. -/
def hexUpperDigit (n : Nat) : Char :=
  if n < 10 then Char.ofNat (48 + n) else Char.ofNat (55 + n)

/-- Model of Python 2 `urllib.quote` on a single byte (here a `Char`
whose codepoint is the byte value): kept verbatim when it is in
`always_safe` or in the caller-supplied safe set, otherwise replaced by
`%` followed by two uppercase hex digits. -/
def quoteChar (safe : List Char) (c : Char) : List Char :=
  if always_safe.contains c || safe.contains c then
    [c]
  else
    ['%', hexUpperDigit (c.toNat / 16 % 16), hexUpperDigit (c.toNat % 16)]

/-- Model of Python 2 `urllib.quote(s, safe)`: each byte quoted
independently and the results concatenated. -/
def pyQuote (safe : List Char) (s : List Char) : List Char :=
  (s.map (quoteChar safe)).flatten

/-- An `img` element of the `div#asinfo` container, reduced to the two
attributes `parsedata` reads: `alt` (descriptive text) and `src`. -/
structure Img where
  alt : List Char
  src : List Char
deriving DecidableEq

/-- Python dict assignment `d[k] = v` on an association-list model of a
dict: overwrite in place when the key is present, append otherwise. -/
def dictInsert {K V : Type} [DecidableEq K]
    (d : List (K × V)) (k : K) (v : V) : List (K × V) :=
  match d with
  | [] => [(k, v)]
  | (k0, v0) :: rest =>
    if k0 = k then (k, v) :: rest else (k0, v0) :: dictInsert rest k v

/-- Python dict lookup `d[k]` on the association-list model, `none`
standing for a KeyError. -/
def dictLookup {K V : Type} [DecidableEq K]
    (d : List (K × V)) (k : K) : Option V :=
  match d with
  | [] => none
  | (k0, v0) :: rest => if k0 = k then some v0 else dictLookup rest k

/-- Test from `parsedata`: `img['alt'].startswith('AS' + asn)`. -/
def altMatches (asn : List Char) (img : Img) : Bool :=
  ('A' :: 'S' :: asn).isPrefixOf img.alt

/-- Model of `parsedata(page, asn)` (src/bgpchart.py lines 74-86).  The
BeautifulSoup step is abstracted to its observable result: the list of
`img` elements inside `div#asinfo`, or `none` when that div is absent —
in which case the source dereferences `None` and crashes with an
AttributeError, modelled as `none` here.  For each image whose alt text
starts with `'AS' + asn` the dict gains the entry
`alt ↦ quote(src, safechars)`. -/
def parsedata (asinfoImgs : Option (List Img)) (asn : List Char) :
    Option (List (List Char × List Char)) :=
  match asinfoImgs with
  | none => none
  | some imgs =>
    some (imgs.foldl
      (fun d img =>
        if altMatches asn img then
          dictInsert d img.alt (pyQuote safechars img.src)
        else d)
      [])

/-- The `(\d{1,10}$)` tail of the validation regex
`re.match('^(AS)?(\d{1,10}$)', args.asn, re.IGNORECASE)`
(src/bgpchart.py line 145), applied to the remainder after the optional
prefix.  The quantifier is greedy; if more than 10 digits are present
every backtracking position leaves a digit as the next character, where
`$` cannot hold, so the match fails.  Python's `$` (without re.MULTILINE)
accepts the end of the string or the position just before a single
trailing newline.  Returns the captured group 2, i.e. the digit run. -/
def matchDigitsEnd (s : List Char) : Option (List Char) :=
  let ds := s.takeWhile isDigitCh
  let rest := s.dropWhile isDigitCh
  if 1 ≤ ds.length ∧ ds.length ≤ 10 ∧ (rest = [] ∨ rest = ['\n']) then
    some ds
  else
    none

/-- Model of the whole validation regex match at line 145, returning
`m.group(2)` (the digit run) on success.  The optional group `(AS)?`
matches two characters `[Aa][Ss]` (re.IGNORECASE) when possible, and the
engine backtracks to the empty alternative when the rest of the pattern
then fails. -/
def re_match_asn (s : List Char) : Option (List Char) :=
  match s with
  | a :: b :: rest =>
    if (a = 'A' ∨ a = 'a') ∧ (b = 'S' ∨ b = 's') then
      match matchDigitsEnd rest with
      | some ds => some ds
      | none => matchDigitsEnd s
    else
      matchDigitsEnd s
  | _ => matchDigitsEnd s

/-- Nonempty run of at most ten ASCII digits. -/
def allDigits1to10 (t : List Char) : Bool :=
  decide (t ≠ []) && decide (t.length ≤ 10) && t.all isDigitCh

/-- Modelled from the spec: a string matching `^(AS)?\d{1,10}$`
case-insensitively in the usual full-match reading (the whole string is
an optional `AS` prefix followed by 1-10 digits, nothing else). -/
def specMatches (s : List Char) : Bool :=
  allDigits1to10 s ||
    (match s with
     | a :: b :: r =>
       decide ((a = 'A' ∨ a = 'a') ∧ (b = 'S' ∨ b = 's')) && allDigits1to10 r
     | _ => false)

/-- Valid forms of the optional case-insensitive `AS` prefix. -/
def asPreOk (pre : List Char) : Prop :=
  pre = [] ∨ ∃ a b, pre = [a, b] ∧ (a = 'A' ∨ a = 'a') ∧ (b = 'S' ∨ b = 's')

/-- Outcome of `urlopen(req).read()` for a given URL, as observed by
`fetchdata`: the body on an HTTP success, a raised `HTTPError` carrying
the status code on a non-success HTTP status (redirect handling happens
below this abstraction), or some other raised exception (`URLError` for
an unreachable host, `ValueError` for a malformed URL, ...), carried
with its rendering. -/
inductive HttpResult where
  | success (data : List Char)
  | httpError (code : Nat)
  | netError (msg : List Char)
deriving DecidableEq

/-- Result of `fetchdata`: returned data, a process exit via `exit(msg)`
(which prints the single message and terminates with nonzero status), or
an exception propagating out of the function uncaught. -/
inductive FetchOutcome where
  | ok (data : List Char)
  | exited (msg : List Char)
  | raised (msg : List Char)
deriving DecidableEq

/-- The message built by `'Failed to retrieve {} (Error: {})'.format(url,
e.code)` at src/bgpchart.py line 70. -/
def fetchFailMsg (url : List Char) (code : Nat) : List Char :=
  "Failed to retrieve ".data ++ url ++ " (Error: ".data
    ++ Nat.toDigits 10 code ++ ")".data

/-- Model of `fetchdata(url)` (src/bgpchart.py lines 62-71): only
`HTTPError` is caught and turned into a fatal one-line exit; any other
exception propagates uncaught. -/
def fetchdata (world : List Char → HttpResult) (url : List Char) :
    FetchOutcome :=
  match world url with
  | .success d => .ok d
  | .httpError code => .exited (fetchFailMsg url code)
  | .netError m => .raised m

/-- Parsed command-line arguments, already past argparse: `ip` is one of
`v4`/`v6` (default `v4`), `copt` one of `a`/`o`/`p` (default `a`), `out`
the optional `-o` path. -/
structure Args where
  asn : List Char
  ip : List Char
  copt : Char
  out : Option (List Char)

/-- The oracles `main` interacts with: the network (`world` gives the
`urlopen` outcome per URL), BeautifulSoup (`asinfoOf` gives the `img`
elements of `div#asinfo` for a fetched page, `none` when the div is
absent), the clock (`today`, a day-of-month), and the filesystem state
at startup: whether the cache directory exists, the mtime day-of-month
of each cache file when it exists, the link mapping stored in the data
cache file (as decoded by `readfile`), and whether the final `copyfile`
succeeds.  File writes are assumed to succeed (their fatal-exit paths
are not exercised by any claim). -/
structure Env where
  world : List Char → HttpResult
  asinfoOf : List Char → Option (List Img)
  today : Nat
  cacheDirExists : Bool
  chartMtimeDay : Option Nat
  dataMtimeDay : Option Nat
  dataContent : List (List Char × List Char)
  copyOk : Bool

/-- Observable side effects of a run of `main`: URLs fetched, cache
files written by `savefile`, and (source, destination) of the final
successful `copyfile`, each in program order. -/
structure Trace where
  fetched : List (List Char)
  saved : List (List Char)
  copied : List (List Char × List Char)
deriving DecidableEq

/-- Empty trace. -/
def Trace.empty : Trace := ⟨[], [], []⟩

/-- Final outcome of `main`: the success line printed to stdout, a
`exit(msg)` fatal termination, or an uncaught exception (crash with
traceback). -/
inductive MainResult where
  | printed (msg : List Char)
  | exited (msg : List Char)
  | crashed (msg : List Char)
deriving DecidableEq

/-- Chart-kind suffix of the chart title (src/bgpchart.py lines 153-159):
argparse restricts `-c` to `a`, `o` or `p`, and the `else` branch of the
source covers `p`. -/
def chartKindText (c : Char) : List Char :=
  if c = 'a' then "Prefixes Announced Chart".data
  else if c = 'o' then "Prefixes Originated Chart".data
  else "Peer Count Chart".data

/-- The chart title `'AS' + asn + ' IP' + args.ip + ' ' + kind`. -/
def chartTitle (asn ip : List Char) (c : Char) : List Char :=
  "AS".data ++ asn ++ " IP".data ++ ip ++ " ".data ++ chartKindText c

/-- The listing-page URL `URL + 'AS' + asn` with `URL =
'http://bgp.he.net/'`. -/
def asURL (asn : List Char) : List Char :=
  "http://bgp.he.net/AS".data ++ asn

/-- The link-mapping cache path `CACHE + '/AS' + asn + '.json'`. -/
def datafilePath (asn : List Char) : List Char :=
  "/tmp/bgpchart/AS".data ++ asn ++ ".json".data

/-- The chart-image cache path
`CACHE + '/AS' + asn + '-' + args.ip + '-' + args.c + '.png'`. -/
def chartfilePath (asn ip : List Char) (c : Char) : List Char :=
  "/tmp/bgpchart/AS".data ++ asn ++ "-".data ++ ip ++ "-".data
    ++ [c] ++ ".png".data

/-- Model of `os.path.basename`: the part after the last slash. -/
def basename (p : List Char) : List Char :=
  (p.reverse.takeWhile (fun ch => ch != '/')).reverse

/-- Final part of `main` (src/bgpchart.py lines 196-209): choose the
output path (the `-o` argument, or the basename of the chart cache path
when absent), copy the cached chart there and print the success line.
When `copyfile` raises IOError, the handler itself crashes: the format
string at line 208 has three placeholders but only two arguments are
supplied, so `.format` raises an uncaught IndexError. -/
def finishStep (env : Env) (chart chartfile : List Char)
    (outOpt : Option (List Char)) (t : Trace) : MainResult × Trace :=
  let outfile := match outOpt with
    | none => basename chartfile
    | some p => p
  if env.copyOk then
    (.printed ("Saved ".data ++ chart ++ ": ".data ++ outfile),
     { t with copied := t.copied ++ [(chartfile, outfile)] })
  else
    (.crashed "IndexError: tuple index out of range".data, t)

/-- Middle part of `main` (src/bgpchart.py lines 187-194), reached only
when the chart cache was stale (`validchart` false): look the chart
title up in the link mapping (an absent key raises an uncaught KeyError
at line 187), fetch the chart image, then persist the link mapping
(unless it came fresh from the cache) followed by the chart image. -/
def chartFetchStep (env : Env) (chart chartfile datafile : List Char)
    (srclinks : List (List Char × List Char)) (validdata : Bool)
    (outOpt : Option (List Char)) (t : Trace) : MainResult × Trace :=
  match dictLookup srclinks chart with
  | none => (.crashed ("KeyError: ".data ++ chart), t)
  | some imgurl =>
    match fetchdata env.world imgurl with
    | .exited m => (.exited m, { t with fetched := t.fetched ++ [imgurl] })
    | .raised m => (.crashed m, { t with fetched := t.fetched ++ [imgurl] })
    | .ok _ =>
      let t1 : Trace := { t with fetched := t.fetched ++ [imgurl] }
      let t2 : Trace :=
        if validdata then t1 else { t1 with saved := t1.saved ++ [datafile] }
      let t3 : Trace := { t2 with saved := t2.saved ++ [chartfile] }
      finishStep env chart chartfile outOpt t3

/-- Model of `main` (src/bgpchart.py lines 122-209) after argparse.
The ASN is validated first (fatal `exit('Invalid AS-number')` on
failure, before any network or cache activity).  The chart title and the
two cache paths are derived from the canonical ASN.  The second
`in_cache` call passes `true` for the directory flag because the first
call creates the cache directory when it is missing. -/
def mainModel (env : Env) (args : Args) : MainResult × Trace :=
  match re_match_asn args.asn with
  | none => (.exited "Invalid AS-number".data, Trace.empty)
  | some asn =>
    let chart := chartTitle asn args.ip args.copt
    let datafile := datafilePath asn
    let chartfile := chartfilePath asn args.ip args.copt
    let validchart := in_cache env.cacheDirExists env.chartMtimeDay.isSome
      env.today (env.chartMtimeDay.getD 0)
    if validchart then
      finishStep env chart chartfile args.out Trace.empty
    else
      let validdata := in_cache true env.dataMtimeDay.isSome
        env.today (env.dataMtimeDay.getD 0)
      if validdata then
        chartFetchStep env chart chartfile datafile env.dataContent true
          args.out Trace.empty
      else
        match fetchdata env.world (asURL asn) with
        | .exited m => (.exited m, ⟨[asURL asn], [], []⟩)
        | .raised m => (.crashed m, ⟨[asURL asn], [], []⟩)
        | .ok page =>
          match parsedata (env.asinfoOf page) asn with
          | none =>
            (.crashed "AttributeError: NoneType object has no attribute findAll".data,
             ⟨[asURL asn], [], []⟩)
          | some srclinks =>
            chartFetchStep env chart chartfile datafile srclinks false
              args.out ⟨[asURL asn], [], []⟩

/-- UTF-8 decoding of a Python 2 byte string to unicode codepoints, as
performed implicitly by `json.dumps` on `str` input and by `json.loads`
(both default to the utf-8 codec).  `none` models the
UnicodeDecodeError/ValueError raised on undecodable input.  Python 2's
utf-8 codec accepts encoded surrogates, so the 3-byte branch does not
exclude them; overlong forms and lead bytes 0xC0/0xC1/0xF5.. are
rejected as in the codec.  `utf8Step` decodes one character, returning
its codepoint and the remaining bytes. -/
def utf8Step : List Nat → Option (Nat × List Nat)
  | [] => none
  | b :: rest =>
    if b < 128 then
      some (b, rest)
    else if 194 ≤ b && b ≤ 223 then
      match rest with
      | b2 :: r2 =>
        if 128 ≤ b2 && b2 ≤ 191 then
          some ((b - 192) * 64 + (b2 - 128), r2)
        else none
      | [] => none
    else if 224 ≤ b && b ≤ 239 then
      match rest with
      | b2 :: b3 :: r3 =>
        if (if b = 224 then 160 ≤ b2 && b2 ≤ 191 else 128 ≤ b2 && b2 ≤ 191)
            && (128 ≤ b3 && b3 ≤ 191) then
          some ((b - 224) * 4096 + (b2 - 128) * 64 + (b3 - 128), r3)
        else none
      | _ => none
    else if 240 ≤ b && b ≤ 244 then
      match rest with
      | b2 :: b3 :: b4 :: r4 =>
        if (if b = 240 then 144 ≤ b2 && b2 ≤ 191
            else if b = 244 then 128 ≤ b2 && b2 ≤ 143
            else 128 ≤ b2 && b2 ≤ 191)
            && (128 ≤ b3 && b3 ≤ 191) && (128 ≤ b4 && b4 ≤ 191) then
          some ((b - 240) * 262144 + (b2 - 128) * 4096 + (b3 - 128) * 64
            + (b4 - 128), r4)
        else none
      | _ => none
    else none

/-- Decoding loop: one unit of fuel per decoded character.  A character
consumes at least one byte, so any fuel of at least the byte count is
exact; `utf8Decode` passes the byte count. -/
def utf8DecodeLoop : Nat → List Nat → Option (List Nat)
  | _, [] => some []
  | 0, _ :: _ => none
  | fuel + 1, l =>
    match utf8Step l with
    | none => none
    | some (cp, r) => (utf8DecodeLoop fuel r).map (cp :: ·)

/-- Full utf-8 decoding of a byte string. -/
def utf8Decode (l : List Nat) : Option (List Nat) :=
  utf8DecodeLoop l.length l

/-- Lowercase hexadecimal digit byte for a value below 16, as used by the
`\uXXXX` escapes of `json.dumps`. -/
def hexLowerDigit (n : Nat) : Nat :=
  if n < 10 then 48 + n else 87 + n

/-- The six-byte escape `\uXXXX` (lowercase hex) for a codepoint below
0x10000. -/
def uEsc (cp : Nat) : List Nat :=
  [92, 117, hexLowerDigit (cp / 4096 % 16), hexLowerDigit (cp / 256 % 16),
   hexLowerDigit (cp / 16 % 16), hexLowerDigit (cp % 16)]

/-- Escaping of one codepoint by `json.dumps` with the default
`ensure_ascii=True`: the two-character escapes of its ESCAPE_DCT for
`"`, `\`, backspace, tab, newline, formfeed, carriage return; `\uXXXX`
for other control characters and for every codepoint outside the
printable ASCII range 0x20..0x7E (a surrogate pair of escapes above
0xFFFF); the codepoint itself otherwise. -/
def escCp (cp : Nat) : List Nat :=
  if cp = 34 then [92, 34]
  else if cp = 92 then [92, 92]
  else if cp = 8 then [92, 98]
  else if cp = 9 then [92, 116]
  else if cp = 10 then [92, 110]
  else if cp = 12 then [92, 102]
  else if cp = 13 then [92, 114]
  else if cp < 32 then uEsc cp
  else if cp ≤ 126 then [cp]
  else if cp < 65536 then uEsc cp
  else uEsc (55296 + (cp - 65536) / 1024) ++ uEsc (56320 + (cp - 65536) % 1024)

/-- The JSON text of one string: quote, escaped codepoints, quote. -/
def escStr (cps : List Nat) : List Nat :=
  34 :: (cps.map escCp).flatten ++ [34]

/-- Serialization of one string by `json.dumps`: utf-8 decode of the
byte string, then the quoted, escaped form; `none` when the bytes are
not valid utf-8 (UnicodeDecodeError). -/
def dumpStr (s : List Nat) : Option (List Nat) :=
  (utf8Decode s).map escStr

/-- The JSON text of one object member, with the default `': '`
key-value separator of `json.dumps`. -/
def memberText (kv : List Nat × List Nat) : List Nat :=
  escStr kv.1 ++ [58, 32] ++ escStr kv.2

/-- Serialization of one member of a string-to-string dict. -/
def dumpMember (kv : List Nat × List Nat) : Option (List Nat) :=
  (dumpStr kv.1).bind fun ks =>
    (dumpStr kv.2).map fun vs => ks ++ [58, 32] ++ vs

/-- Sequencing of a list of optional results. -/
def seqOpt : List (Option (List Nat)) → Option (List (List Nat))
  | [] => some []
  | o :: rest => o.bind fun x => (seqOpt rest).map (x :: ·)

/-- Join of member texts with the default `', '` item separator. -/
def joinMembers : List (List Nat) → List Nat
  | [] => []
  | [m] => m
  | m :: ms => m ++ [44, 32] ++ joinMembers ms

/-- The full JSON object text `{` members `}`. -/
def objText (d : List (List Nat × List Nat)) : List Nat :=
  123 :: joinMembers (d.map memberText) ++ [125]

/-- Model of `json.dumps` on a string-to-string dict (the only payload
`savefile` serializes; the member order abstracts the source dict's
iteration order).  `none` models the uncaught UnicodeDecodeError on a
byte string that is not valid utf-8. -/
def json_dumps (d : List (List Nat × List Nat)) : Option (List Nat) :=
  (seqOpt (d.map dumpMember)).map fun ms => 123 :: joinMembers ms ++ [125]

/-- JSON whitespace bytes. -/
def jsonWs (c : Nat) : Bool :=
  c = 32 || c = 9 || c = 10 || c = 13

/-- Value of one hexadecimal digit codepoint (either case). -/
def hexVal (c : Nat) : Option Nat :=
  if 48 ≤ c && c ≤ 57 then some (c - 48)
  else if 97 ≤ c && c ≤ 102 then some (c - 87)
  else if 65 ≤ c && c ≤ 70 then some (c - 55)
  else none

/-- Scanner for the body of a JSON string (after the opening quote), on
codepoints, following py_scanstring of the Python 2 json decoder in
strict mode: literal characters up to the closing quote (control
characters below 0x20 are an error), the named backslash escapes, and
`\uXXXX` with combination of a valid surrogate pair (a high surrogate
followed by `\u` and a non-low-surrogate value is kept as-is, the second
escape being rescanned).  Returns the content codepoints and the rest of
the input.  The scanner is written as a non-recursive step `strStep`
consuming one scan unit, driven by a fuel loop: one unit of fuel per
emitted character, each of which consumes at least one input codepoint,
so any fuel above the input length is exact.

On a `\uXXXX` escape holding a high surrogate the step looks ahead: a
following `\u` escape with a low surrogate is combined into one
codepoint (twelve codepoints consumed); a following `\u` escape with
four valid hex digits and another value emits the high surrogate alone
and leaves the second escape to be rescanned by the next step; a
following `\u` with invalid hex digits is an error (the look-ahead in
py_scanstring decodes it eagerly and raises); anything else emits the
high surrogate alone. -/
inductive StrStepRes where
  | close (rest : List Nat)
  | chr (cp : Nat) (rest : List Nat)

/-- One scan unit of the JSON string scanner (see `StrStepRes`). -/
def strStep : List Nat → Option StrStepRes
  | [] => none
  | c :: rest =>
    if c = 34 then some (.close rest)
    else if c = 92 then
      match rest with
      | [] => none
      | e :: r2 =>
        if e = 34 then some (.chr 34 r2)
        else if e = 92 then some (.chr 92 r2)
        else if e = 47 then some (.chr 47 r2)
        else if e = 98 then some (.chr 8 r2)
        else if e = 102 then some (.chr 12 r2)
        else if e = 110 then some (.chr 10 r2)
        else if e = 114 then some (.chr 13 r2)
        else if e = 116 then some (.chr 9 r2)
        else if e = 117 then
          match r2 with
          | h1 :: h2 :: h3 :: h4 :: r3 =>
            match hexVal h1, hexVal h2, hexVal h3, hexVal h4 with
            | some v1, some v2, some v3, some v4 =>
              let u1 := v1 * 4096 + v2 * 256 + v3 * 16 + v4
              if 55296 ≤ u1 && u1 ≤ 56319 then
                match r3 with
                | 92 :: 117 :: g1 :: g2 :: g3 :: g4 :: r5 =>
                  match hexVal g1, hexVal g2, hexVal g3, hexVal g4 with
                  | some w1, some w2, some w3, some w4 =>
                    let u2 := w1 * 4096 + w2 * 256 + w3 * 16 + w4
                    if 56320 ≤ u2 && u2 ≤ 57343 then
                      some (.chr
                        (65536 + (u1 - 55296) * 1024 + (u2 - 56320)) r5)
                    else some (.chr u1 r3)
                  | _, _, _, _ => none
                | _ => some (.chr u1 r3)
              else some (.chr u1 r3)
            | _, _, _, _ => none
          | _ => none
        else none
    else if c < 32 then none
    else some (.chr c rest)

/-- Scan loop for the body of a JSON string, one unit of fuel per
emitted character. -/
def parseStrLoop : Nat → List Nat → Option (List Nat × List Nat)
  | 0, _ => none
  | fuel + 1, l =>
    match strStep l with
    | none => none
    | some (.close rest) => some ([], rest)
    | some (.chr cp rest) =>
      (parseStrLoop fuel rest).map fun p => (cp :: p.1, p.2)

/-- Scanner for the body of a JSON string, from after the opening
quote. -/
def parseStrCps (l : List Nat) : Option (List Nat × List Nat) :=
  parseStrLoop (l.length + 1) l

/-- Scanner for one member of a JSON object whose value is a string
(the only shape this program ever stores), positioned at the opening
quote of the key: string key, `:`, string value, then either `,` (more
members follow; the returned flag is true and the returned remainder has
the following whitespace skipped) or `}` (object closed, flag false).
Whitespace between tokens is skipped as by the decoder. -/
def memberStep (l : List Nat) :
    Option ((List Nat × List Nat) × (Bool × List Nat)) :=
  match l with
  | 34 :: r1 =>
    match parseStrCps r1 with
    | none => none
    | some (k, r2) =>
      match r2.dropWhile jsonWs with
      | 58 :: r3 =>
        match r3.dropWhile jsonWs with
        | 34 :: r4 =>
          match parseStrCps r4 with
          | none => none
          | some (v, r5) =>
            match r5.dropWhile jsonWs with
            | 44 :: r6 => some ((k, v), (true, r6.dropWhile jsonWs))
            | 125 :: r6 => some ((k, v), (false, r6))
            | _ => none
        | _ => none
      | _ => none
  | _ => none

/-- Member loop for a JSON object, one unit of fuel per member, so any
fuel bound of at least the member count is exact; `json_loads` passes
the input length.  Stops after the member that is followed by `}`,
returning the members in order and the input after the `}`. -/
def parseMembersF : Nat → List Nat → Option (List (List Nat × List Nat) × List Nat)
  | 0, _ => none
  | fuel + 1, l =>
    match memberStep l with
    | none => none
    | some (kv, (true, r)) =>
      match parseMembersF fuel r with
      | some (ms, r7) => some (kv :: ms, r7)
      | none => none
    | some (kv, (false, r)) => some ([kv], r)

/-- Model of `json.loads` restricted to the payloads this program
writes: a single object whose values are strings.  The byte string is
utf-8 decoded (as the Python 2 decoder does), the object is scanned
with the member scanner, duplicate keys resolve by overwrite as in a
Python dict, and trailing content other than whitespace is an error.
`none` models the ValueError raised on any malformed input. -/
def json_loads (s : List Nat) : Option (List (List Nat × List Nat)) :=
  (utf8Decode s).bind fun cps =>
    match cps.dropWhile jsonWs with
    | 123 :: r1 =>
      match r1.dropWhile jsonWs with
      | 125 :: r2 =>
        if r2.dropWhile jsonWs = [] then some [] else none
      | w =>
        match parseMembersF cps.length w with
        | some (ms, r2) =>
          if r2.dropWhile jsonWs = [] then
            some (ms.foldl (fun acc kv => dictInsert acc kv.1 kv.2) [])
          else none
        | none => none
    | _ => none

/-- Data passed to `savefile`: a dict (serialized as JSON) or raw bytes
(written as-is), per the `isinstance(data, dict)` test at line 93. -/
inductive PyData where
  | dict (d : List (List Nat × List Nat))
  | raw (s : List Nat)

/-- Result of `readfile`: a unicode-keyed dict when the path ends in
`.json` (the result of `json.loads`), the raw contents otherwise. -/
inductive ReadRes where
  | udict (d : List (List Nat × List Nat))
  | ustr (s : List Nat)
deriving DecidableEq

/-- Model of `savefile(data, filepath)` (src/bgpchart.py lines 89-99)
over a filesystem oracle mapping paths to contents.  Dicts are
serialized with `json.dumps` first; `none` models the uncaught
UnicodeDecodeError that `json.dumps` raises on non-utf-8 byte strings
(the `except IOError` clause does not catch it).  The write itself is
assumed to succeed (the IOError fatal-exit path is not exercised by any
claim). -/
def savefile (fs : List Char → Option (List Nat)) (data : PyData)
    (p : List Char) : Option (List Char → Option (List Nat)) :=
  match data with
  | .raw s => some (fun q => if q = p then some s else fs q)
  | .dict d =>
    (json_dumps d).map fun s => fun q => if q = p then some s else fs q

/-- Model of `readfile(filepath)` (src/bgpchart.py lines 102-112): read
the contents, then `json.loads` them when the path ends in `.json`.
`none` covers the fatal exit on IOError (missing file) and the uncaught
ValueError from `json.loads`. -/
def readfile (fs : List Char → Option (List Nat)) (p : List Char) :
    Option ReadRes :=
  match fs p with
  | none => none
  | some content =>
    if List.isSuffixOf ".json".data p then
      (json_loads content).map ReadRes.udict
    else
      some (.ustr content)

-- ===================== theorems =====================

/-- Inserting a key that is absent from an association-list dict appends
the binding at the end. -/
theorem dictInsert_not_mem {K V : Type} [DecidableEq K]
    (d : List (K × V)) (k : K) (v : V) (h : k ∉ d.map Prod.fst) :
    dictInsert d k v = d ++ [(k, v)] := by
  induction d with
  | nil => rfl
  | cons hd tl ih =>
    simp only [List.map_cons, List.mem_cons] at h
    push_neg at h
    obtain ⟨h1, h2⟩ := h
    obtain ⟨k0, v0⟩ := hd
    simp only [dictInsert, List.cons_append]
    rw [if_neg (by simpa using fun e => h1 e.symm), ih h2]

/-- Generalized accumulator form of the `parsedata` loop: when the
matching alt texts are pairwise distinct and disjoint from the keys
already in the accumulator, the loop appends exactly the filtered,
quoted entries in page order. -/
theorem parsedata_foldl (asn : List Char) (imgs : List Img) :
    ∀ acc : List (List Char × List Char),
      ((imgs.filter (altMatches asn)).map Img.alt).Nodup →
      (∀ i ∈ imgs, altMatches asn i = true → i.alt ∉ acc.map Prod.fst) →
      imgs.foldl
        (fun d img =>
          if altMatches asn img then
            dictInsert d img.alt (pyQuote safechars img.src)
          else d)
        acc
      = acc ++ (imgs.filter (altMatches asn)).map
          (fun i => (i.alt, pyQuote safechars i.src)) := by
  induction imgs with
  | nil => intro acc _ _; simp
  | cons hd tl ih =>
    intro acc hnd hdisj
    by_cases hm : altMatches asn hd = true
    · simp only [List.foldl_cons, if_pos hm]
      have hfilter : (hd :: tl).filter (altMatches asn)
          = hd :: tl.filter (altMatches asn) := by
        simp [List.filter_cons, hm]
      rw [hfilter] at hnd
      simp only [List.map_cons, List.nodup_cons] at hnd
      obtain ⟨hhd, htlnd⟩ := hnd
      have hacc : hd.alt ∉ acc.map Prod.fst :=
        hdisj hd (List.mem_cons_self _ _) hm
      rw [dictInsert_not_mem acc hd.alt _ hacc]
      rw [ih (acc ++ [(hd.alt, pyQuote safechars hd.src)]) htlnd ?_]
      · rw [hfilter]
        simp
      · intro i hi hmi
        simp only [List.map_append, List.mem_append, List.map_cons,
          List.map_nil, List.mem_singleton, not_or]
        refine ⟨hdisj i (List.mem_cons_of_mem _ hi) hmi, ?_⟩
        intro he
        exact hhd (he ▸ List.mem_map_of_mem Img.alt
          (List.mem_filter.mpr ⟨hi, hmi⟩))
    · simp only [List.foldl_cons, if_neg hm]
      have hfilter : (hd :: tl).filter (altMatches asn)
          = tl.filter (altMatches asn) := by
        simp [List.filter_cons, hm]
      rw [hfilter] at hnd
      rw [ih acc hnd (fun i hi hmi => hdisj i (List.mem_cons_of_mem _ hi) hmi)]
      rw [hfilter]

/-- Taking while a predicate holds skips over a block on which it holds
everywhere. -/
theorem takeWhile_append_all (p : Char → Bool) (ds rest : List Char)
    (h : ∀ c ∈ ds, p c = true) :
    (ds ++ rest).takeWhile p = ds ++ rest.takeWhile p := by
  induction ds with
  | nil => simp
  | cons c t ih =>
    have hc : p c = true := h c (List.mem_cons_self _ _)
    have ht : ∀ x ∈ t, p x = true := fun x hx => h x (List.mem_cons_of_mem _ hx)
    simp [List.takeWhile_cons, hc, ih ht]

/-- Dropping while a predicate holds consumes a block on which it holds
everywhere. -/
theorem dropWhile_append_all (p : Char → Bool) (ds rest : List Char)
    (h : ∀ c ∈ ds, p c = true) :
    (ds ++ rest).dropWhile p = rest.dropWhile p := by
  induction ds with
  | nil => simp
  | cons c t ih =>
    have hc : p c = true := h c (List.mem_cons_self _ _)
    have ht : ∀ x ∈ t, p x = true := fun x hx => h x (List.mem_cons_of_mem _ hx)
    simp [List.dropWhile_cons, hc, ih ht]

/-- An ASCII digit is not an `A` of either case. -/
theorem isDigit_ne_alpha (c : Char) (h : isDigitCh c = true) :
    ¬(c = 'A' ∨ c = 'a') := by
  rintro (rfl | rfl) <;> exact absurd h (by decide)

/-- Computation of `matchDigitsEnd` on a decomposed input: a nonempty run
of at most ten digits followed by nothing or a single newline matches,
capturing the digit run. -/
theorem matchDigitsEnd_of_decomp (ds nl : List Char)
    (hds : ∀ c ∈ ds, isDigitCh c = true) (hne : ds ≠ [])
    (hlen : ds.length ≤ 10) (hnl : nl = [] ∨ nl = ['\n']) :
    matchDigitsEnd (ds ++ nl) = some ds := by
  have hnltw : nl.takeWhile isDigitCh = [] := by
    rcases hnl with rfl | rfl <;> decide
  have hnldw : nl.dropWhile isDigitCh = nl := by
    rcases hnl with rfl | rfl <;> decide
  have htw : (ds ++ nl).takeWhile isDigitCh = ds := by
    rw [takeWhile_append_all _ _ _ hds, hnltw, List.append_nil]
  have hdw : (ds ++ nl).dropWhile isDigitCh = nl := by
    rw [dropWhile_append_all _ _ _ hds, hnldw]
  simp only [matchDigitsEnd, htw, hdw]
  rw [if_pos ⟨List.length_pos.mpr hne, hlen, hnl⟩]

/-- Inversion of `matchDigitsEnd`: a successful match captures exactly
the leading digit run, the remainder being empty or one newline. -/
theorem matchDigitsEnd_inv (s ds : List Char)
    (h : matchDigitsEnd s = some ds) :
    s = ds ++ s.dropWhile isDigitCh
    ∧ ds ≠ [] ∧ ds.length ≤ 10 ∧ (∀ c ∈ ds, isDigitCh c = true)
    ∧ (s.dropWhile isDigitCh = [] ∨ s.dropWhile isDigitCh = ['\n']) := by
  simp only [matchDigitsEnd] at h
  by_cases hc : 1 ≤ (s.takeWhile isDigitCh).length
      ∧ (s.takeWhile isDigitCh).length ≤ 10
      ∧ (s.dropWhile isDigitCh = [] ∨ s.dropWhile isDigitCh = ['\n'])
  · rw [if_pos hc] at h
    obtain ⟨h1, h2, h3⟩ := hc
    injection h with h
    subst h
    exact ⟨(List.takeWhile_append_dropWhile isDigitCh s).symm, List.length_pos.mp h1,
      h2, fun c hc => List.mem_takeWhile_imp hc, h3⟩
  · rw [if_neg hc] at h
    exact absurd h (by simp)

/-- Packaging of `matchDigitsEnd_inv` as an existential decomposition. -/
theorem exists_of_matchDigitsEnd (s ds : List Char)
    (h : matchDigitsEnd s = some ds) :
    ∃ nl, s = ds ++ nl ∧ ds ≠ [] ∧ ds.length ≤ 10
      ∧ (∀ c ∈ ds, isDigitCh c = true) ∧ (nl = [] ∨ nl = ['\n']) := by
  obtain ⟨hdecomp, hne, hlen, hall, hnl⟩ := matchDigitsEnd_inv s ds h
  exact ⟨_, hdecomp, hne, hlen, hall, hnl⟩

/-- Soundness of the ASN validation match on a decomposed input: an
optional case-insensitive `AS` prefix, one to ten digits, and an optional
trailing newline match, with group 2 capturing exactly the digit run. -/
theorem re_match_asn_of_decomp (s pre ds nl : List Char)
    (hs : s = pre ++ ds ++ nl) (hpre : asPreOk pre)
    (hds : ∀ c ∈ ds, isDigitCh c = true) (hne : ds ≠ [])
    (hlen : ds.length ≤ 10) (hnl : nl = [] ∨ nl = ['\n']) :
    re_match_asn s = some ds := by
  rcases hpre with rfl | ⟨a, b, rfl, ha, hb⟩
  · subst hs
    simp only [List.nil_append]
    obtain ⟨d0, dtl, rfl⟩ : ∃ d0 dtl, ds = d0 :: dtl := by
      cases ds with
      | nil => exact absurd rfl hne
      | cons x xs => exact ⟨x, xs, rfl⟩
    have hd0 : isDigitCh d0 = true := hds d0 (List.mem_cons_self _ _)
    rw [List.cons_append]
    cases hrest : dtl ++ nl with
    | nil =>
      obtain ⟨rfl, rfl⟩ := List.append_eq_nil.mp hrest
      simp only [re_match_asn]
      simpa using matchDigitsEnd_of_decomp [d0] [] (by simpa using hd0)
        (by simp) (by simp) (Or.inl rfl)
    | cons b r =>
      simp only [re_match_asn]
      rw [if_neg fun hab => isDigit_ne_alpha d0 hd0 hab.1]
      have hshape : d0 :: b :: r = (d0 :: dtl) ++ nl := by
        rw [List.cons_append, hrest]
      rw [hshape]
      exact matchDigitsEnd_of_decomp _ _ hds hne hlen hnl
  · subst hs
    simp only [List.cons_append, List.nil_append]
    simp only [re_match_asn]
    rw [if_pos ⟨ha, hb⟩]
    rw [matchDigitsEnd_of_decomp ds nl hds hne hlen hnl]

/-- Completeness of the ASN validation match: any successful match
decomposes the input into an optional case-insensitive `AS` prefix, the
captured run of one to ten digits, and an optional trailing newline. -/
theorem re_match_asn_complete (s ds : List Char)
    (h : re_match_asn s = some ds) :
    ∃ pre nl, s = pre ++ ds ++ nl ∧ asPreOk pre
      ∧ ds ≠ [] ∧ ds.length ≤ 10 ∧ (∀ c ∈ ds, isDigitCh c = true)
      ∧ (nl = [] ∨ nl = ['\n']) := by
  rcases s with _ | ⟨a, _ | ⟨b, rest⟩⟩
  · rw [show re_match_asn [] = none from rfl] at h
    exact absurd h (by simp)
  · simp only [re_match_asn] at h
    obtain ⟨nl, hdec, hne, hlen, hall, hnl⟩ := exists_of_matchDigitsEnd _ _ h
    exact ⟨[], nl, by simpa using hdec, Or.inl rfl, hne, hlen, hall, hnl⟩
  · simp only [re_match_asn] at h
    by_cases hab : (a = 'A' ∨ a = 'a') ∧ (b = 'S' ∨ b = 's')
    · rw [if_pos hab] at h
      cases hm : matchDigitsEnd rest with
      | some ds2 =>
        rw [hm] at h
        obtain rfl : ds2 = ds := by injection h
        obtain ⟨nl, hdec, hne, hlen, hall, hnl⟩ :=
          exists_of_matchDigitsEnd _ _ hm
        exact ⟨[a, b], nl, by simp [hdec], Or.inr ⟨a, b, rfl, hab.1, hab.2⟩,
          hne, hlen, hall, hnl⟩
      | none =>
        rw [hm] at h
        obtain ⟨nl, hdec, hne, hlen, hall, hnl⟩ :=
          exists_of_matchDigitsEnd _ _ h
        exact ⟨[], nl, by simpa using hdec, Or.inl rfl, hne, hlen, hall, hnl⟩
    · rw [if_neg hab] at h
      obtain ⟨nl, hdec, hne, hlen, hall, hnl⟩ :=
        exists_of_matchDigitsEnd _ _ h
      exact ⟨[], nl, by simpa using hdec, Or.inl rfl, hne, hlen, hall, hnl⟩

/-- Hexadecimal digits emitted by the escaper are read back by the
scanner. -/
theorem hexVal_hexLowerDigit : ∀ k < 16, hexVal (hexLowerDigit k) = some k := by
  decide

/-- A pure-ASCII byte string is its own utf-8 decoding, for any fuel
covering its length. -/
theorem utf8DecodeLoop_ascii (s : List Nat) :
    ∀ fuel, s.length ≤ fuel → (∀ b ∈ s, b < 128) →
      utf8DecodeLoop fuel s = some s := by
  induction s with
  | nil => intro fuel _ _; cases fuel <;> rfl
  | cons b t ih =>
    intro fuel hf h
    cases fuel with
    | zero => simp at hf
    | succ f =>
      have hb : b < 128 := h b (List.mem_cons_self _ _)
      have ht := ih f (by simp only [List.length_cons] at hf; omega)
        (fun x hx => h x (List.mem_cons_of_mem _ hx))
      simp [utf8DecodeLoop, utf8Step, hb, ht]

/-- A pure-ASCII byte string is its own utf-8 decoding. -/
theorem utf8Decode_ascii (s : List Nat) (h : ∀ b ∈ s, b < 128) :
    utf8Decode s = some s := by
  unfold utf8Decode
  exact utf8DecodeLoop_ascii s s.length le_rfl h

/-- The escape of one codepoint emitted for an ASCII codepoint consists
of ASCII bytes. -/
theorem escCp_ascii : ∀ c < 128, ∀ b ∈ escCp c, b < 128 := by
  decide

/-- Every codepoint escape is nonempty. -/
theorem escCp_length_pos (c : Nat) : 1 ≤ (escCp c).length := by
  unfold escCp
  repeat' split
  all_goals simp [uEsc]

/-- The escaped form of a string is at least as long as the string. -/
theorem flatten_escCp_length (cps : List Nat) :
    cps.length ≤ (cps.map escCp).flatten.length := by
  induction cps with
  | nil => simp
  | cons c cs ih =>
    simp only [List.map_cons, List.flatten_cons, List.length_append,
      List.length_cons]
    have := escCp_length_pos c
    omega

/-- Round trip of the scan loop over the escaper on ASCII content, for
any fuel above the content length. -/
theorem parseStrLoop_escape (cps : List Nat) :
    ∀ (rest : List Nat) (fuel : Nat), cps.length < fuel →
      (∀ c ∈ cps, c < 128) →
      parseStrLoop fuel ((cps.map escCp).flatten ++ 34 :: rest)
        = some (cps, rest) := by
  induction cps with
  | nil =>
    intro rest fuel hf _
    cases fuel with
    | zero => omega
    | succ f => simp [parseStrLoop, strStep]
  | cons c cs ih =>
    intro rest fuel hf h
    cases fuel with
    | zero => simp at hf
    | succ f =>
      have hc : c < 128 := h c (List.mem_cons_self _ _)
      have ih' := ih rest f (by simp only [List.length_cons] at hf; omega)
        (fun x hx => h x (List.mem_cons_of_mem _ hx))
      simp only [List.map_cons, List.flatten_cons, List.append_assoc]
      interval_cases c <;>
        simp [parseStrLoop, strStep, escCp, uEsc, hexLowerDigit, hexVal, ih']

/-- Round trip of the string scanner over the escaper on ASCII content:
scanning the escaped form followed by the closing quote recovers the
codepoints and leaves the rest of the input. -/
theorem parseStrCps_escape (cps rest : List Nat) (h : ∀ c ∈ cps, c < 128) :
    parseStrCps ((cps.map escCp).flatten ++ 34 :: rest) = some (cps, rest) := by
  unfold parseStrCps
  apply parseStrLoop_escape cps rest _ ?_ h
  have h1 := flatten_escCp_length cps
  simp only [List.length_append, List.length_cons]
  omega

/-- Canonical cons shape of a printed member followed by anything. -/
theorem memberText_shape (kv : List Nat × List Nat) (Z : List Nat) :
    memberText kv ++ Z
      = 34 :: ((kv.1.map escCp).flatten ++ 34 ::
          (58 :: 32 :: (34 :: ((kv.2.map escCp).flatten ++ 34 :: Z)))) := by
  simp [memberText, escStr]

/-- The member scanner on a printed member followed by a comma, a space
and further content starting with a quote. -/
theorem memberStep_comma (kv : List Nat × List Nat) (z' : List Nat)
    (hk : ∀ b ∈ kv.1, b < 128) (hv : ∀ b ∈ kv.2, b < 128) :
    memberStep (memberText kv ++ 44 :: 32 :: 34 :: z')
      = some (kv, (true, 34 :: z')) := by
  rw [memberText_shape kv (44 :: 32 :: 34 :: z')]
  have hKparse := parseStrCps_escape kv.1
    (58 :: 32 :: (34 :: ((kv.2.map escCp).flatten ++ 34 :: (44 :: 32 :: 34 :: z')))) hk
  have hVparse := parseStrCps_escape kv.2 (44 :: 32 :: 34 :: z') hv
  simp [memberStep, hKparse, hVparse, List.dropWhile_cons, jsonWs]

/-- The member scanner on a printed member followed by a closing
brace. -/
theorem memberStep_brace (kv : List Nat × List Nat) (rest : List Nat)
    (hk : ∀ b ∈ kv.1, b < 128) (hv : ∀ b ∈ kv.2, b < 128) :
    memberStep (memberText kv ++ 125 :: rest) = some (kv, (false, rest)) := by
  rw [memberText_shape kv (125 :: rest)]
  have hKparse := parseStrCps_escape kv.1
    (58 :: 32 :: (34 :: ((kv.2.map escCp).flatten ++ 34 :: (125 :: rest)))) hk
  have hVparse := parseStrCps_escape kv.2 (125 :: rest) hv
  simp [memberStep, hKparse, hVparse, List.dropWhile_cons, jsonWs]

/-- The printed member list of a nonempty dict starts with a quote. -/
theorem joinMembers_map_head (kv : List Nat × List Nat)
    (tl : List (List Nat × List Nat)) :
    ∃ z, joinMembers ((kv :: tl).map memberText) = 34 :: z := by
  cases tl with
  | nil =>
    rw [List.map_cons, List.map_nil,
      show joinMembers [memberText kv] = memberText kv ++ [] by
        simp [joinMembers]]
    exact ⟨_, memberText_shape kv []⟩
  | cons kv2 tl2 =>
    rw [show joinMembers ((kv :: kv2 :: tl2).map memberText)
        = memberText kv ++ ([44, 32] ++ joinMembers ((kv2 :: tl2).map memberText)) by
        simp [joinMembers]]
    exact ⟨_, memberText_shape kv _⟩

/-- The printed member list is at least as long as the member count. -/
theorem joinMembers_map_length (d : List (List Nat × List Nat)) :
    d.length ≤ (joinMembers (d.map memberText)).length := by
  induction d with
  | nil => simp [joinMembers]
  | cons kv tl ih =>
    cases tl with
    | nil =>
      simp only [List.map_cons, List.map_nil, joinMembers, List.length_cons,
        List.length_nil]
      simp [memberText, escStr]
    | cons kv2 tl2 =>
      simp only [List.map_cons, joinMembers, List.length_append,
        List.length_cons]
      simp only [List.map_cons, List.length_cons] at ih
      omega

/-- The member loop on the printed members of a nonempty ASCII dict,
for any fuel covering the member count, consumes everything up to the
closing brace and returns the members in order. -/
theorem parseMembersF_printed (ms : List (List Nat × List Nat)) :
    ∀ (rest : List Nat) (fuel : Nat),
      ms ≠ [] → ms.length ≤ fuel →
      (∀ kv ∈ ms, (∀ b ∈ kv.1, b < 128) ∧ (∀ b ∈ kv.2, b < 128)) →
      parseMembersF fuel (joinMembers (ms.map memberText) ++ 125 :: rest)
        = some (ms, rest) := by
  induction ms with
  | nil => intro rest fuel hne _ _; exact absurd rfl hne
  | cons kv tl ih =>
    intro rest fuel _ hlen h
    cases fuel with
    | zero => simp at hlen
    | succ f =>
      have hk := (h kv (List.mem_cons_self _ _)).1
      have hv := (h kv (List.mem_cons_self _ _)).2
      cases tl with
      | nil =>
        rw [List.map_cons, List.map_nil,
          show joinMembers [memberText kv] = memberText kv from rfl]
        simp [parseMembersF, memberStep_brace kv rest hk hv]
      | cons kv2 tl2 =>
        obtain ⟨z, hz⟩ := joinMembers_map_head kv2 tl2
        have hshape : joinMembers ((kv :: kv2 :: tl2).map memberText) ++ 125 :: rest
            = memberText kv
              ++ 44 :: 32 :: (joinMembers ((kv2 :: tl2).map memberText) ++ 125 :: rest) := by
          rw [show joinMembers ((kv :: kv2 :: tl2).map memberText)
              = memberText kv ++ ([44, 32] ++ joinMembers ((kv2 :: tl2).map memberText)) by
              simp [joinMembers]]
          simp
        rw [hshape]
        have hcomma := memberStep_comma kv (z ++ 125 :: rest) hk hv
        rw [hz]
        simp only [List.cons_append]
        have htl := ih rest f (by simp)
          (by simp only [List.length_cons] at hlen ⊢; omega)
          (fun x hx => h x (List.mem_cons_of_mem _ hx))
        rw [hz] at htl
        simp only [List.cons_append] at htl
        simp [parseMembersF, hcomma, htl]

/-- Serialization of one ASCII string. -/
theorem dumpStr_ascii (s : List Nat) (h : ∀ b ∈ s, b < 128) :
    dumpStr s = some (escStr s) := by
  simp [dumpStr, utf8Decode_ascii s h]

/-- Serialization of the members of an ASCII dict. -/
theorem seqOpt_dumpMember (d : List (List Nat × List Nat)) :
    (∀ kv ∈ d, (∀ b ∈ kv.1, b < 128) ∧ (∀ b ∈ kv.2, b < 128)) →
    seqOpt (d.map dumpMember) = some (d.map memberText) := by
  induction d with
  | nil => intro _; rfl
  | cons kv tl ih =>
    intro h
    have h1 := (h kv (List.mem_cons_self _ _)).1
    have h2 := (h kv (List.mem_cons_self _ _)).2
    have htl := ih (fun x hx => h x (List.mem_cons_of_mem _ hx))
    simp [seqOpt, dumpMember, dumpStr_ascii _ h1, dumpStr_ascii _ h2, htl,
      memberText]

/-- On an ASCII dict, `json.dumps` succeeds and produces the object
text. -/
theorem json_dumps_ascii (d : List (List Nat × List Nat))
    (h : ∀ kv ∈ d, (∀ b ∈ kv.1, b < 128) ∧ (∀ b ∈ kv.2, b < 128)) :
    json_dumps d = some (objText d) := by
  simp [json_dumps, seqOpt_dumpMember d h, objText]

/-- The printed form of an ASCII string is ASCII. -/
theorem escStr_ascii (s : List Nat) (h : ∀ b ∈ s, b < 128) :
    ∀ b ∈ escStr s, b < 128 := by
  intro b hb
  simp only [escStr, List.mem_cons, List.mem_append, List.mem_singleton] at hb
  have hb2 : b = 34 ∨ b ∈ (s.map escCp).flatten := by tauto
  rcases hb2 with rfl | hb2
  · omega
  · obtain ⟨l, hl, hbl⟩ := List.mem_flatten.mp hb2
    obtain ⟨c, hc, rfl⟩ := List.mem_map.mp hl
    exact escCp_ascii c (h c hc) b hbl

/-- The printed form of an ASCII member is ASCII. -/
theorem memberText_ascii (kv : List Nat × List Nat)
    (h1 : ∀ b ∈ kv.1, b < 128) (h2 : ∀ b ∈ kv.2, b < 128) :
    ∀ b ∈ memberText kv, b < 128 := by
  intro b hb
  simp only [memberText, List.mem_append, List.mem_cons,
    List.mem_singleton] at hb
  have hb2 : b ∈ escStr kv.1 ∨ b = 58 ∨ b = 32 ∨ b ∈ escStr kv.2 := by
    tauto
  rcases hb2 with hb2 | rfl | rfl | hb2
  · exact escStr_ascii kv.1 h1 b hb2
  · omega
  · omega
  · exact escStr_ascii kv.2 h2 b hb2

/-- The printed member list of an ASCII dict is ASCII. -/
theorem joinMembers_map_ascii (d : List (List Nat × List Nat)) :
    (∀ kv ∈ d, (∀ b ∈ kv.1, b < 128) ∧ (∀ b ∈ kv.2, b < 128)) →
    ∀ b ∈ joinMembers (d.map memberText), b < 128 := by
  induction d with
  | nil => intro _ b hb; simp [joinMembers] at hb
  | cons kv tl ih =>
    intro h b hb
    have hm := memberText_ascii kv (h kv (List.mem_cons_self _ _)).1
      (h kv (List.mem_cons_self _ _)).2
    cases tl with
    | nil =>
      rw [List.map_cons, List.map_nil,
        show joinMembers [memberText kv] = memberText kv from rfl] at hb
      exact hm b hb
    | cons kv2 tl2 =>
      rw [show joinMembers ((kv :: kv2 :: tl2).map memberText)
          = memberText kv ++ ([44, 32] ++ joinMembers ((kv2 :: tl2).map memberText)) by
          simp [joinMembers]] at hb
      simp only [List.mem_append, List.mem_cons, List.mem_singleton] at hb
      have hb2 : b ∈ memberText kv ∨ b = 44 ∨ b = 32
          ∨ b ∈ joinMembers ((kv2 :: tl2).map memberText) := by tauto
      rcases hb2 with hb2 | rfl | rfl | hb2
      · exact hm b hb2
      · omega
      · omega
      · exact ih (fun x hx => h x (List.mem_cons_of_mem _ hx)) b hb2

/-- The full object text of an ASCII dict is ASCII. -/
theorem objText_ascii (d : List (List Nat × List Nat))
    (h : ∀ kv ∈ d, (∀ b ∈ kv.1, b < 128) ∧ (∀ b ∈ kv.2, b < 128)) :
    ∀ b ∈ objText d, b < 128 := by
  intro b hb
  simp only [objText, List.mem_cons, List.mem_append,
    List.mem_singleton] at hb
  have hb2 : b = 123 ∨ b ∈ joinMembers (d.map memberText) ∨ b = 125 := by
    tauto
  rcases hb2 with rfl | hb2 | rfl
  · omega
  · exact joinMembers_map_ascii d h b hb2
  · omega

/-- Rebuilding a dict by insertion from a key-distinct association list
reproduces the list. -/
theorem foldl_dictInsert_eq (l : List (List Nat × List Nat)) :
    ∀ acc : List (List Nat × List Nat),
      (((acc ++ l).map Prod.fst).Nodup) →
      l.foldl (fun a kv => dictInsert a kv.1 kv.2) acc = acc ++ l := by
  induction l with
  | nil => intro acc _; simp
  | cons kv tl ih =>
    intro acc hnd
    have hnd' := hnd
    rw [List.map_append, List.nodup_append] at hnd'
    obtain ⟨-, -, hdisj⟩ := hnd'
    have hnotin : kv.1 ∉ acc.map Prod.fst := by
      intro hin
      exact hdisj hin (by simp)
    rw [List.foldl_cons, dictInsert_not_mem acc kv.1 kv.2 hnotin]
    rw [ih (acc ++ [kv]) (by simpa using hnd)]
    simp

/-- Parsing the object text of a key-distinct ASCII dict returns the
dict. -/
theorem json_loads_objText (d : List (List Nat × List Nat))
    (hnd : (d.map Prod.fst).Nodup)
    (h : ∀ kv ∈ d, (∀ b ∈ kv.1, b < 128) ∧ (∀ b ∈ kv.2, b < 128)) :
    json_loads (objText d) = some d := by
  cases d with
  | nil => decide
  | cons kv tl =>
    have hdec := utf8Decode_ascii (objText (kv :: tl))
      (objText_ascii (kv :: tl) h)
    obtain ⟨z, hz⟩ := joinMembers_map_head kv tl
    have hfold := foldl_dictInsert_eq (kv :: tl) [] (by simpa using hnd)
    unfold json_loads
    rw [hdec]
    show (match (objText (kv :: tl)).dropWhile jsonWs with
      | 123 :: r1 =>
        match r1.dropWhile jsonWs with
        | 125 :: r2 =>
          if r2.dropWhile jsonWs = [] then some [] else none
        | w =>
          match parseMembersF (objText (kv :: tl)).length w with
          | some (ms, r2) =>
            if r2.dropWhile jsonWs = [] then
              some (ms.foldl (fun acc kv => dictInsert acc kv.1 kv.2) [])
            else none
          | none => none
      | _ => none) = some (kv :: tl)
    rw [show (objText (kv :: tl)).dropWhile jsonWs = objText (kv :: tl) by
      simp [objText, List.dropWhile_cons, jsonWs]]
    simp only [objText, hz, List.cons_append]
    have hdw : (34 :: (z ++ [125])).dropWhile jsonWs = 34 :: (z ++ [125]) := by
      simp [List.dropWhile_cons, jsonWs]
    have hfuel3 : (kv :: tl).length ≤ (123 :: 34 :: (z ++ [125])).length := by
      have hj := joinMembers_map_length (kv :: tl)
      rw [hz] at hj
      simp only [List.length_cons, List.length_append, List.length_nil] at hj ⊢
      omega
    have hparse3 := parseMembersF_printed (kv :: tl) []
      (123 :: 34 :: (z ++ [125])).length (by simp) hfuel3 h
    rw [hz] at hparse3
    simp only [List.cons_append] at hparse3
    simp only [List.length_cons, List.length_append, List.length_nil]
      at hparse3
    rw [hdw]
    simp [hparse3, hfold]

/-- C7 (counterexample): saving the one-entry mapping whose key is the
two-byte utf-8 string `\xc3\xa9` and loading it back yields the
unicode-keyed mapping with the single codepoint 233 — a different
string, as in Python 2, where the loaded `{u'\xe9': u'a'}` is not equal
to the saved `{'\xc3\xa9': 'a'}` — so the round trip does not yield an
equal mapping for every string-to-string mapping. -/
theorem c7_roundtrip_counterexample :
    ((savefile (fun _ => none) (.dict [([195, 169], [97])]) "a.json".data).bind
        fun fs2 => readfile fs2 "a.json".data)
      = some (.udict [([233], [97])])
    ∧ ([([233], [97])] : List (List Nat × List Nat)) ≠ [([195, 169], [97])] := by
  constructor
  · decide
  · decide

/-- C7 (amended): for every mapping whose keys and values are ASCII
strings and whose keys are distinct, and every path ending in `.json`,
saving the mapping with `savefile` and loading the path with `readfile`
yields a mapping equal to the original; for non-ASCII content the loaded
strings are unicode decodings of the stored bytes (not equal as in the
counterexample), and invalid utf-8 makes `json.dumps` raise. -/
theorem c7_savefile_readfile_roundtrip
    (fs : List Char → Option (List Nat))
    (d : List (List Nat × List Nat)) (p : List Char)
    (hjson : List.isSuffixOf ".json".data p = true)
    (hnd : (d.map Prod.fst).Nodup)
    (h : ∀ kv ∈ d, (∀ b ∈ kv.1, b < 128) ∧ (∀ b ∈ kv.2, b < 128)) :
    ∃ fs2, savefile fs (.dict d) p = some fs2
      ∧ readfile fs2 p = some (.udict d) := by
  refine ⟨fun q => if q = p then some (objText d) else fs q, ?_, ?_⟩
  · simp [savefile, json_dumps_ascii d h]
  · simp [readfile, hjson, json_loads_objText d hnd h]

/-- C7 (witness): a concrete one-entry ASCII mapping round-trips through
a `.json` path. -/
theorem c7_savefile_readfile_roundtrip_witness :
    ∃ fs2, savefile (fun _ => none) (.dict [([97], [98])]) "a.json".data
        = some fs2
      ∧ readfile fs2 "a.json".data = some (.udict [([97], [98])]) :=
  c7_savefile_readfile_roundtrip (fun _ => none) [([97], [98])]
    "a.json".data (by decide) (by decide) (by decide)

/-- C1 (counterexample): with the cache directory and the cache file both
present, a file last modified on day-of-month 31 is reported fresh on
day-of-month 1 (month rollover), although the two day numbers differ —
so `in_cache` does not return true only when the day numbers are equal. -/
theorem c1_in_cache_counterexample :
    in_cache true true 1 31 = true ∧ (1 : Nat) ≠ 31 := by
  decide

/-- C1 (amended): for an existing cache file (cache directory present),
`in_cache` returns true exactly when today's day-of-month is less than or
equal to the file's last-modified day-of-month.  In particular it returns
false when the last-modified day number is strictly less than today's
(stale), true when they are equal (fresh), but also true when the
last-modified day number is strictly greater (month/year rollover). -/
theorem c1_in_cache_freshness (nowDay mtimeDay : Nat) :
    in_cache true true nowDay mtimeDay = decide (nowDay ≤ mtimeDay) := by
  unfold in_cache
  by_cases h : nowDay > mtimeDay
  · simp [h, Nat.not_le.mpr h]
  · simp [h, Nat.le_of_not_lt h]

/-- C4 (counterexample): a page whose `div#asinfo` holds two image
elements with the same alt text (both starting with `AS1`) yields a
mapping of size 1, not size N = 2: the Python dict collapses duplicate
keys, the second entry overwriting the first. -/
theorem c4_parsedata_counterexample :
    (parsedata (some [⟨"AS1 x".data, "u".data⟩, ⟨"AS1 x".data, "w".data⟩])
        ['1']).map List.length = some 1
    ∧ ([⟨"AS1 x".data, "u".data⟩, (⟨"AS1 x".data, "w".data⟩ : Img)].countP
        (altMatches ['1'])) = 2 := by
  decide

/-- C4 (amended): for a page whose matching image elements carry pairwise
distinct alt texts, `parsedata` returns exactly the mapping sending each
such alt text to its `src` attribute URL-encoded with the extended safe
set (so the mapping has size N, images with other alt texts being
excluded); and every character of the extended safe set passes through
the URL-encoding unescaped. -/
theorem c4_parsedata_spec (asn : List Char) (imgs : List Img)
    (hnd : ((imgs.filter (altMatches asn)).map Img.alt).Nodup) :
    parsedata (some imgs) asn
      = some ((imgs.filter (altMatches asn)).map
          (fun i => (i.alt, pyQuote safechars i.src)))
    ∧ ∀ c ∈ safechars, quoteChar safechars c = [c] := by
  constructor
  · simp only [parsedata]
    rw [parsedata_foldl asn imgs [] hnd (by simp)]
    simp
  · decide

/-- Helper: an existing file in an existing cache directory is fresh when
today's day number does not exceed the mtime day number. -/
theorem in_cache_fresh (nowDay mtimeDay : Nat) (h : nowDay ≤ mtimeDay) :
    in_cache true true nowDay mtimeDay = true := by
  simp [in_cache, Nat.not_lt.mpr h]

/-- Helper: a missing file is never fresh. -/
theorem in_cache_no_file (b : Bool) (nowDay mtimeDay : Nat) :
    in_cache b false nowDay mtimeDay = false := by
  cases b <;> simp [in_cache]

/-- C2: when the chart-image cache is fresh (file present in an existing
cache directory, mtime day-of-month not before today's), `main` fetches
nothing (no network activity), writes nothing, and only copies the
cached chart file to the output path (the `-o` argument or the default
basename), printing the success line. -/
theorem c2_fresh_chart_no_network (env : Env) (args : Args)
    (ds : List Char) (d : Nat)
    (hasn : re_match_asn args.asn = some ds)
    (hdir : env.cacheDirExists = true)
    (hmt : env.chartMtimeDay = some d)
    (hfresh : env.today ≤ d)
    (hcopy : env.copyOk = true) :
    mainModel env args =
      (.printed ("Saved ".data ++ chartTitle ds args.ip args.copt
          ++ ": ".data
          ++ args.out.getD (basename (chartfilePath ds args.ip args.copt))),
       ⟨[], [],
        [(chartfilePath ds args.ip args.copt,
          args.out.getD (basename (chartfilePath ds args.ip args.copt)))]⟩) := by
  have hic : in_cache env.cacheDirExists env.chartMtimeDay.isSome env.today
      (env.chartMtimeDay.getD 0) = true := by
    rw [hdir, hmt]
    simpa using in_cache_fresh env.today d hfresh
  simp only [mainModel, hasn, hic, if_true]
  cases ho : args.out with
  | none => simp [finishStep, hcopy, Trace.empty]
  | some p => simp [finishStep, hcopy, Trace.empty]

/-- C2 (witness): concrete fresh-chart invocation with no network oracle
behaviour at all. -/
theorem c2_fresh_chart_no_network_witness :
    mainModel
      ⟨fun _ => .netError [], fun _ => none, 5, true, some 5, none, [], true⟩
      ⟨"7".data, "v4".data, 'a', none⟩
      = (.printed ("Saved ".data ++ chartTitle "7".data "v4".data 'a'
          ++ ": ".data
          ++ (Option.getD none (basename (chartfilePath "7".data "v4".data 'a')))),
         ⟨[], [],
          [(chartfilePath "7".data "v4".data 'a',
            Option.getD none (basename (chartfilePath "7".data "v4".data 'a')))]⟩) :=
  c2_fresh_chart_no_network
    ⟨fun _ => .netError [], fun _ => none, 5, true, some 5, none, [], true⟩
    ⟨"7".data, "v4".data, 'a', none⟩ "7".data 5 (by decide) rfl rfl
    (by decide) rfl

/-- C3 (counterexample): the string `"1\n"` does not match
`^(AS)?\d{1,10}$` in the full-match reading of the spec, yet the
program's validation accepts it (Python's `$` also matches just before a
single trailing newline), extracting `"1"` — so not every other input
string is rejected. -/
theorem c3_asn_counterexample :
    specMatches ['1', '\n'] = false ∧ re_match_asn ['1', '\n'] = some ['1'] := by
  decide

/-- C3 (amended): every string consisting of an optional case-insensitive
`AS` prefix and one to ten digits — optionally followed by one trailing
newline, an artifact of Python's `$` — is accepted, with the canonical
form being exactly the digit run (conjuncts 1 and 2, soundness and
completeness of the validation match); every other string is rejected
with the fatal `Invalid AS-number` error before any network or cache
activity (conjunct 3: the run exits with the message, an empty trace). -/
theorem c3_asn_validation :
    (∀ s pre ds nl, s = pre ++ ds ++ nl → asPreOk pre →
        (∀ c ∈ ds, isDigitCh c = true) → ds ≠ [] → ds.length ≤ 10 →
        (nl = [] ∨ nl = ['\n']) → re_match_asn s = some ds)
    ∧ (∀ s ds, re_match_asn s = some ds →
        ∃ pre nl, s = pre ++ ds ++ nl ∧ asPreOk pre ∧ ds ≠ []
          ∧ ds.length ≤ 10 ∧ (∀ c ∈ ds, isDigitCh c = true)
          ∧ (nl = [] ∨ nl = ['\n']))
    ∧ (∀ env args, re_match_asn args.asn = none →
        mainModel env args = (.exited "Invalid AS-number".data, Trace.empty)) := by
  refine ⟨?_, re_match_asn_complete, ?_⟩
  · intro s pre ds nl hs hpre hds hne hlen hnl
    exact re_match_asn_of_decomp s pre ds nl hs hpre hds hne hlen hnl
  · intro env args h
    simp [mainModel, h]

/-- C3 (witness): `"AS12"` is accepted with canonical form `"12"`, and a
run on the invalid input `"xx"` exits with the invalid-ASN message and
an empty trace (no network activity). -/
theorem c3_asn_validation_witness :
    re_match_asn "AS12".data = some "12".data
    ∧ mainModel
        ⟨fun _ => .netError [], fun _ => none, 1, false, none, none, [], true⟩
        ⟨"xx".data, "v4".data, 'a', none⟩
      = (.exited "Invalid AS-number".data, Trace.empty) := by
  constructor
  · exact c3_asn_validation.1 "AS12".data "AS".data "12".data []
      (by decide) (Or.inr ⟨'A', 'S', by decide, Or.inl rfl, Or.inl rfl⟩)
      (by decide) (by decide) (by decide) (Or.inl rfl)
  · exact c3_asn_validation.2.2 _ _ (by decide)

/-- C5: with a fresh link-mapping cache that lacks the requested chart
title (here: an empty mapping), line 187 `srclinks[chart]` raises an
uncaught KeyError — the program crashes with a traceback instead of
reporting an explicit chart-not-found error. -/
theorem c5_missing_chart_key_crash :
    mainModel
      ⟨fun _ => .netError [], fun _ => none, 5, true, some 4, some 5, [], true⟩
      ⟨"64500".data, "v4".data, 'a', none⟩
      = (.crashed ("KeyError: ".data
          ++ "AS64500 IPv4 Prefixes Announced Chart".data),
         Trace.empty) := by
  decide

/-- C6: when the chart-image cache is stale but the link-mapping cache is
fresh, `main` takes the link mapping from the cache file (no listing-page
fetch or parse), fetches exactly the chart image at the URL the mapping
assigns to the chart title, and persists only the chart image — the
trace shows one fetch (the image), one write (the chart file, not the
data file), and the final copy. -/
theorem c6_stale_chart_fresh_data (env : Env) (args : Args)
    (ds : List Char) (dd : Nat) (u img : List Char)
    (hasn : re_match_asn args.asn = some ds)
    (hstale : in_cache env.cacheDirExists env.chartMtimeDay.isSome env.today
      (env.chartMtimeDay.getD 0) = false)
    (hdd : env.dataMtimeDay = some dd)
    (hfresh : env.today ≤ dd)
    (hlook : dictLookup env.dataContent (chartTitle ds args.ip args.copt)
      = some u)
    (himg : env.world u = .success img)
    (hcopy : env.copyOk = true) :
    mainModel env args =
      (.printed ("Saved ".data ++ chartTitle ds args.ip args.copt
          ++ ": ".data
          ++ args.out.getD (basename (chartfilePath ds args.ip args.copt))),
       ⟨[u], [chartfilePath ds args.ip args.copt],
        [(chartfilePath ds args.ip args.copt,
          args.out.getD (basename (chartfilePath ds args.ip args.copt)))]⟩) := by
  have hic2 : in_cache true env.dataMtimeDay.isSome env.today
      (env.dataMtimeDay.getD 0) = true := by
    rw [hdd]
    simpa using in_cache_fresh env.today dd hfresh
  simp only [mainModel, hasn, hstale, hic2, if_true, Bool.false_eq_true,
    if_false]
  simp only [chartFetchStep, hlook, fetchdata, himg]
  cases ho : args.out with
  | none => simp [finishStep, hcopy, Trace.empty]
  | some p => simp [finishStep, hcopy, Trace.empty]

/-- C6 (witness): concrete stale-chart, fresh-data invocation. -/
theorem c6_stale_chart_fresh_data_witness :
    mainModel
      ⟨fun _ => .success "img".data, fun _ => none, 5, true, some 4, some 5,
       [(chartTitle "7".data "v4".data 'a', "http://img".data)], true⟩
      ⟨"7".data, "v4".data, 'a', none⟩
      = (.printed ("Saved ".data ++ chartTitle "7".data "v4".data 'a'
          ++ ": ".data
          ++ (Option.getD none (basename (chartfilePath "7".data "v4".data 'a')))),
         ⟨["http://img".data], [chartfilePath "7".data "v4".data 'a'],
          [(chartfilePath "7".data "v4".data 'a',
            Option.getD none (basename (chartfilePath "7".data "v4".data 'a')))]⟩) :=
  c6_stale_chart_fresh_data
    ⟨fun _ => .success "img".data, fun _ => none, 5, true, some 4, some 5,
     [(chartTitle "7".data "v4".data 'a', "http://img".data)], true⟩
    ⟨"7".data, "v4".data, 'a', none⟩ "7".data 5 "http://img".data "img".data
    (by decide) (by decide) rfl (by decide) (by decide) rfl rfl

/-- C8: when `urlopen` raises `HTTPError` with a status code (any
non-success HTTP status), `fetchdata` terminates the process at once via
`exit` with the single message naming the URL and the status code, and
returns no data. -/
theorem c8_fetchdata_http_error (world : List Char → HttpResult)
    (url : List Char) (code : Nat)
    (h : world url = .httpError code) :
    fetchdata world url
      = .exited ("Failed to retrieve ".data ++ url ++ " (Error: ".data
          ++ Nat.toDigits 10 code ++ ")".data) := by
  simp [fetchdata, h, fetchFailMsg]

/-- C8 (witness): a 404 response for a concrete URL. -/
theorem c8_fetchdata_http_error_witness :
    fetchdata (fun _ => .httpError 404) "http://bgp.he.net/AS1".data
      = .exited ("Failed to retrieve ".data ++ "http://bgp.he.net/AS1".data
          ++ " (Error: ".data ++ Nat.toDigits 10 404 ++ ")".data) :=
  c8_fetchdata_http_error (fun _ => .httpError 404)
    "http://bgp.he.net/AS1".data 404 rfl

/-- C10: a network-level failure that is not an HTTP status error (the
`except` clause at line 69 catches `HTTPError` only) propagates out of
`fetchdata` uncaught: the outcome is a raised exception, which is never
equal to the one-line fatal `exit` outcome. -/
theorem c10_fetchdata_nonhttp_raised (world : List Char → HttpResult)
    (url m : List Char) (h : world url = .netError m) :
    fetchdata world url = .raised m
    ∧ ∀ msg, (FetchOutcome.raised m) ≠ .exited msg := by
  refine ⟨by simp [fetchdata, h], fun msg hcontra => ?_⟩
  exact FetchOutcome.noConfusion hcontra

/-- C10 (witness): an unreachable-host failure for a concrete URL. -/
theorem c10_fetchdata_nonhttp_raised_witness :
    fetchdata (fun _ => .netError "urlopen error no route to host".data)
        "http://bgp.he.net/AS1".data
      = .raised "urlopen error no route to host".data
    ∧ ∀ msg, (FetchOutcome.raised "urlopen error no route to host".data)
        ≠ .exited msg :=
  c10_fetchdata_nonhttp_raised
    (fun _ => .netError "urlopen error no route to host".data)
    "http://bgp.he.net/AS1".data "urlopen error no route to host".data rfl

/-- C9: the first-run scenario for ASN `64500` with default options and
no cache: the chart title is `AS64500 IPv4 Prefixes Announced Chart`,
the program fetches the listing page then the mapped chart image, writes
both cache files (link mapping then chart image), copies the chart to
the default output name `AS64500-v4-a.png` (the basename of the chart
cache path) and prints the success line. -/
theorem c9_first_run_scenario (env : Env) (pg : List Char)
    (srclinks : List (List Char × List Char)) (u img : List Char)
    (hchart : env.chartMtimeDay = none)
    (hdata : env.dataMtimeDay = none)
    (hpage : env.world "http://bgp.he.net/AS64500".data = .success pg)
    (hparse : parsedata (env.asinfoOf pg) "64500".data = some srclinks)
    (hlook : dictLookup srclinks
      "AS64500 IPv4 Prefixes Announced Chart".data = some u)
    (himg : env.world u = .success img)
    (hcopy : env.copyOk = true) :
    chartTitle "64500".data "v4".data 'a'
      = "AS64500 IPv4 Prefixes Announced Chart".data
    ∧ mainModel env ⟨"64500".data, "v4".data, 'a', none⟩
      = (.printed
          "Saved AS64500 IPv4 Prefixes Announced Chart: AS64500-v4-a.png".data,
         ⟨["http://bgp.he.net/AS64500".data, u],
          ["/tmp/bgpchart/AS64500.json".data,
           "/tmp/bgpchart/AS64500-v4-a.png".data],
          [("/tmp/bgpchart/AS64500-v4-a.png".data,
            "AS64500-v4-a.png".data)]⟩) := by
  have htitle : chartTitle "64500".data "v4".data 'a'
      = "AS64500 IPv4 Prefixes Announced Chart".data := by decide
  refine ⟨htitle, ?_⟩
  have hre : re_match_asn "64500".data = some "64500".data := by decide
  have hurl : asURL "64500".data = "http://bgp.he.net/AS64500".data := by
    decide
  have hcf : chartfilePath "64500".data "v4".data 'a'
      = "/tmp/bgpchart/AS64500-v4-a.png".data := by decide
  have hdf : datafilePath "64500".data
      = "/tmp/bgpchart/AS64500.json".data := by decide
  have hbn : basename "/tmp/bgpchart/AS64500-v4-a.png".data
      = "AS64500-v4-a.png".data := by decide
  have hmsg : "Saved ".data
        ++ "AS64500 IPv4 Prefixes Announced Chart".data ++ ": ".data
        ++ "AS64500-v4-a.png".data
      = "Saved AS64500 IPv4 Prefixes Announced Chart: AS64500-v4-a.png".data
    := by decide
  have hic1 : in_cache env.cacheDirExists env.chartMtimeDay.isSome env.today
      (env.chartMtimeDay.getD 0) = false := by
    rw [hchart]
    simpa using in_cache_no_file env.cacheDirExists env.today 0
  have hic2 : in_cache true env.dataMtimeDay.isSome env.today
      (env.dataMtimeDay.getD 0) = false := by
    rw [hdata]
    simpa using in_cache_no_file true env.today 0
  simp only [mainModel, hre, hic1, Bool.false_eq_true, if_false, hic2,
    htitle, hdf, hcf, hurl, fetchdata, hpage, hparse]
  simp only [chartFetchStep, hlook, fetchdata, himg]
  simp [finishStep, hcopy, hbn, hmsg]

/-- C9 (witness): a concrete environment realizing the scenario — a
listing page with one image whose alt text is the chart title and whose
src survives URL-encoding unchanged. -/
theorem c9_first_run_scenario_witness :
    mainModel
      ⟨fun url => if url = "http://bgp.he.net/AS64500".data then
          .success "page".data
        else if url = "http://bgp.he.net/im.png".data then
          .success "img".data
        else .netError [],
       fun _ => some [⟨"AS64500 IPv4 Prefixes Announced Chart".data,
         "http://bgp.he.net/im.png".data⟩],
       5, false, none, none, [], true⟩
      ⟨"64500".data, "v4".data, 'a', none⟩
      = (.printed
          "Saved AS64500 IPv4 Prefixes Announced Chart: AS64500-v4-a.png".data,
         ⟨["http://bgp.he.net/AS64500".data,
           "http://bgp.he.net/im.png".data],
          ["/tmp/bgpchart/AS64500.json".data,
           "/tmp/bgpchart/AS64500-v4-a.png".data],
          [("/tmp/bgpchart/AS64500-v4-a.png".data,
            "AS64500-v4-a.png".data)]⟩) :=
  (c9_first_run_scenario
    ⟨fun url => if url = "http://bgp.he.net/AS64500".data then
        .success "page".data
      else if url = "http://bgp.he.net/im.png".data then
        .success "img".data
      else .netError [],
     fun _ => some [⟨"AS64500 IPv4 Prefixes Announced Chart".data,
       "http://bgp.he.net/im.png".data⟩],
     5, false, none, none, [], true⟩
    "page".data
    [("AS64500 IPv4 Prefixes Announced Chart".data,
      "http://bgp.he.net/im.png".data)]
    "http://bgp.he.net/im.png".data "img".data
    rfl rfl (by decide) (by decide) (by decide) (by decide) rfl).2

/-- C4 (witness): the amended theorem applied to a concrete two-image
page with distinct alt texts. -/
theorem c4_parsedata_spec_witness :
    parsedata (some [⟨"AS1 x".data, "a+b c".data⟩, ⟨"other".data, "u".data⟩])
        ['1']
      = some [("AS1 x".data, "a+b%20c".data)] := by
  have h := c4_parsedata_spec ['1']
    [⟨"AS1 x".data, "a+b c".data⟩, ⟨"other".data, "u".data⟩] (by decide)
  rw [h.1]
  decide

end Bgpchart
